import Mathlib

/-!
Verification of the API-playground request builder of this repository
(`src/packages/openapi/src/ui/playground/fetcher.ts`).

The development shallowly embeds the runtime values, the request schemas, the
recursive value converter `convertValue`, the body builder
`createBodyFromValue` and the browser-side fetcher returned by
`createBrowserFetcher`.  JavaScript runtime values are modelled by the
inductive `Value`; browser primitives used by the source (`typeof`,
truthiness, `Number`, `String`, `JSON.stringify`, `FormData`, `Object.keys`)
are modelled by explicit functions whose doc comments state the semantics
they follow.  The converter can genuinely diverge (a dynamic field can
resolve to another `switcher` schema), so it takes an explicit fuel
argument; `none` means the fuel ran out.
-/

namespace Fumadocs

/-- A JavaScript runtime value, as far as the fetcher can observe it:
`null`, `undefined`, booleans, numbers (`none` is `NaN`; only integral
numbers are represented), strings, opaque `File` handles, arrays and
plain objects (a list of own enumerable properties, in insertion order). -/
inductive Value where
  | vNull
  | vUndefined
  | vBool (b : Bool)
  | vNum (n : Option Int)
  | vStr (s : String)
  | vFile (name : String)
  | vArr (elems : List Value)
  | vObj (fields : List (String × Value))

/-- Model of JavaScript truthiness: `false`, `0`, `NaN`, `''`, `null` and
`undefined` are falsy, every object (including `File`) is truthy. -/
def jsTruthy : Value → Bool
  | .vNull => false
  | .vUndefined => false
  | .vBool b => b
  | .vNum none => false
  | .vNum (some i) => i != 0
  | .vStr s => s != ""
  | .vFile _ => true
  | .vArr _ => true
  | .vObj _ => true

/-- Model of the `typeof` operator on the modelled values
(`typeof null` is `"object"`). -/
def jsTypeof : Value → String
  | .vNull => "object"
  | .vUndefined => "undefined"
  | .vBool _ => "boolean"
  | .vNum _ => "number"
  | .vStr _ => "string"
  | .vFile _ => "object"
  | .vArr _ => "object"
  | .vObj _ => "object"

/-- `value === '' || value === undefined || value === null`
(fetcher.ts line 155). -/
def isEmptyValue : Value → Bool
  | .vStr s => s == ""
  | .vUndefined => true
  | .vNull => true
  | _ => false

/-- `prop instanceof File`. -/
def isFileValue : Value → Bool
  | .vFile _ => true
  | _ => false

/-- `typeof value === 'object'` (true for arrays, files and `null`). -/
def isJsObjectValue : Value → Bool
  | .vNull => true
  | .vFile _ => true
  | .vArr _ => true
  | .vObj _ => true
  | _ => false

/-- Own enumerable string keys of an array, in order: `"0"`, `"1"`, ... -/
def indexedEntries (start : Nat) : List Value → List (String × Value)
  | [] => []
  | x :: rest => (toString start, x) :: indexedEntries (start + 1) rest

/-- Model of `Object.keys(value)` paired with `value[key]`: the own
enumerable properties.  Objects yield their fields, arrays their indexed
elements, `File` handles (and primitives) yield nothing. -/
def jsEntries : Value → List (String × Value)
  | .vObj fields => fields
  | .vArr elems => indexedEntries 0 elems
  | _ => []

mutual

/-- Model of JavaScript `String(value)` coercion. -/
def jsString : Value → String
  | .vNull => "null"
  | .vUndefined => "undefined"
  | .vBool b => cond b "true" "false"
  | .vNum none => "NaN"
  | .vNum (some i) => toString i
  | .vStr s => s
  | .vFile _ => "[object File]"
  | .vObj _ => "[object Object]"
  | .vArr elems => jsStringList elems

/-- `Array.prototype.toString`: elements joined by `","`, with `null` and
`undefined` elements rendered as the empty string. -/
def jsStringList : List Value → String
  | [] => ""
  | [x] => jsStringElem x
  | x :: rest => jsStringElem x ++ "," ++ jsStringList rest

/-- One element of an array being stringified. -/
def jsStringElem : Value → String
  | .vNull => ""
  | .vUndefined => ""
  | v => jsString v

end

/-- Model of JavaScript `Number(string)` restricted to integral literals:
other strings coerce to `NaN` (`none`). -/
def strToNum (s : String) : Option Int :=
  if s == "" then some 0 else s.toInt?

/-- Model of JavaScript `Number(value)` coercion (`none` is `NaN`).  Objects,
arrays and files coerce through their string form. -/
def jsNumber : Value → Option Int
  | .vNull => some 0
  | .vUndefined => none
  | .vBool b => some (cond b 1 0)
  | .vNum n => n
  | .vStr s => strToNum s
  | v => strToNum (jsString v)

mutual

/-- A request schema node (`RequestSchema` from `@/render/playground`).
Modelled from the spec: the type declaration itself is not under `src/`;
section 3 of the spec lists the variants `object` (field map plus a flag
allowing additional untyped properties), `array` (element schema),
`string`, `number`, `boolean`, `file`, `switcher` and `null`, each
carrying an `isRequired` flag; `reference` nodes live in `SchemaOrRef`. -/
inductive RequestSchema where
  | string (isRequired : Bool)
  | number (isRequired : Bool)
  | boolean (isRequired : Bool)
  | file (isRequired : Bool)
  | null (isRequired : Bool)
  | switcher (isRequired : Bool)
  | array (isRequired : Bool) (items : SchemaOrRef)
  | object (isRequired : Bool) (properties : List (String × SchemaOrRef))
      (additionalProperties : Bool)

/-- Either a concrete schema or a named reference (`ReferenceSchema`),
to be looked up in the reference table. -/
inductive SchemaOrRef where
  | schema (s : RequestSchema)
  | reference (name : String)

end

/-- The `isRequired` flag of a schema node. -/
def RequestSchema.isRequired : RequestSchema → Bool
  | .string r => r
  | .number r => r
  | .boolean r => r
  | .file r => r
  | .null r => r
  | .switcher r => r
  | .array r _ => r
  | .object r _ _ => r

/-- The `type` tag of a schema node, as the string the source compares
against. -/
def RequestSchema.typeName : RequestSchema → String
  | .string _ => "string"
  | .number _ => "number"
  | .boolean _ => "boolean"
  | .file _ => "file"
  | .null _ => "null"
  | .switcher _ => "switcher"
  | .array _ _ => "array"
  | .object _ _ _ => "object"

/-- Whether a schema node is a `switcher` node. -/
def isSwitcherType : RequestSchema → Bool
  | .switcher _ => true
  | _ => false

/-- The reference table: named schema definitions
(`references: Record<string, RequestSchema>`). -/
abbrev RefTable := List (String × RequestSchema)

/-- A dynamic field entry (`DynamicField` from `@/ui/contexts/schema`):
either a concrete schema binding (`type: 'field'`) or some other kind. -/
inductive DynamicField where
  | field (schema : SchemaOrRef)
  | nonField

/-- The dynamic field map, keyed by dot-separated field paths. -/
abbrev DynMap := List (String × DynamicField)

/-- Modelled from the spec: the Schema Resolver (`resolve` from
`@/ui/playground/resolve` is not under `src/`).  Section 4.1: given a
reference it looks the name up in the table and returns the target schema,
exactly one hop; a concrete schema is returned unchanged; a name absent
from the table falls back to a null-typed schema, which callers must
tolerate. -/
def resolve (s : SchemaOrRef) (references : RefTable) : RequestSchema :=
  match s with
  | .schema t => t
  | .reference name =>
    match references.lookup name with
    | some t => t
    | none => .null false

/-- `getDynamicFieldSchema` (fetcher.ts lines 230-239): look the path up in
the dynamic field map; entries that are not of type `'field'` and missing
entries fall back to `{ type: 'null', isRequired: false }`. -/
def getDynamicFieldSchema (name : String) (dynamicFields : DynMap) : SchemaOrRef :=
  match dynamicFields.lookup name with
  | some (.field s) => s
  | _ => .schema (.null false)

/-- The primitive `switch (schema.type)` at the end of `convertValue`
(fetcher.ts lines 218-227): `number` coerces numerically, `boolean` is
`undefined` for the literal string `'null'` and otherwise the strict
comparison with the literal string `'true'`, `file` passes the value
through, and everything else coerces to a string. -/
def convertPrim (value : Value) (schema : RequestSchema) : Value :=
  match schema with
  | .number _ => .vNum (jsNumber value)
  | .boolean _ =>
    match value with
    | .vStr s => if s == "null" then .vUndefined else .vBool (s == "true")
    | _ => .vBool false
  | .file _ => value
  | _ => .vStr (jsString value)

mutual

/-- `convertValue` (fetcher.ts lines 148-228), with explicit fuel (`none`
means the fuel ran out; the source can diverge when a dynamic field
resolves to another `switcher` schema).  In source order: the emptiness
rules, then arrays, then `switcher` resolution, then objects, then the
primitive switch. -/
def convertValue : Nat → String → Value → RequestSchema → RefTable → DynMap →
    Option Value
  | 0, _, _, _, _, _ => none
  | fuel + 1, fieldName, value, schema, references, dynamicFields =>
    if isEmptyValue value && schema.isRequired then
      some (if schema.typeName == "boolean" then .vBool false else .vStr "")
    else if isEmptyValue value then
      some .vUndefined
    else
      match schema, value with
      | .array _ items, .vArr elems =>
        (convertElems fuel fieldName 0 elems items references dynamicFields).map .vArr
      | .switcher _, _ =>
        convertValue fuel fieldName value
          (resolve (getDynamicFieldSchema fieldName dynamicFields) references)
          references dynamicFields
      | .object _ properties additional, _ =>
        if isJsObjectValue value then
          (convertEntries fuel fieldName (jsEntries value) properties additional
            references dynamicFields).map .vObj
        else
          some (convertPrim value (.object false properties additional))
      | _, _ => some (convertPrim value schema)

/-- `value.map((item, index) => convertValue(fieldName + '.' + String(index),
item, resolve(schema.items, references), ...))`: each element converted
against the resolved item schema with the path extended by its index. -/
def convertElems : Nat → String → Nat → List Value → SchemaOrRef → RefTable →
    DynMap → Option (List Value)
  | _, _, _, [], _, _, _ => some []
  | fuel, fieldName, index, item :: rest, items, references, dynamicFields =>
    match convertValue fuel (fieldName ++ "." ++ toString index) item
        (resolve items references) references dynamicFields,
      convertElems fuel fieldName (index + 1) rest items references dynamicFields with
    | some y, some ys => some (y :: ys)
    | _, _ => none

/-- The object branch (fetcher.ts lines 181-216): each present key is
converted against its declared property schema, else (when additional
properties are allowed) against the dynamic field schema for
`fieldName.key`, else the raw value passes through unconverted (after a
console warning, which the model drops). -/
def convertEntries : Nat → String → List (String × Value) →
    List (String × SchemaOrRef) → Bool → RefTable → DynMap →
    Option (List (String × Value))
  | _, _, [], _, _, _, _ => some []
  | fuel, fieldName, (key, prop) :: rest, properties, additional, references,
      dynamicFields =>
    let propFieldName := fieldName ++ "." ++ key
    let converted : Option (String × Value) :=
      match properties.lookup key with
      | some propSchema =>
        (convertValue fuel propFieldName prop (resolve propSchema references)
          references dynamicFields).map (fun w => (key, w))
      | none =>
        if additional then
          (convertValue fuel propFieldName prop
            (resolve (getDynamicFieldSchema propFieldName dynamicFields) references)
            references dynamicFields).map (fun w => (key, w))
        else
          some (key, prop)
    match converted,
      convertEntries fuel fieldName rest properties additional references
        dynamicFields with
    | some kv, some kvs => some (kv :: kvs)
    | _, _ => none

end

/-- One hexadecimal digit. -/
def hexDigit (d : Nat) : String :=
  String.singleton (Char.ofNat (if d < 10 then 48 + d else 87 + (d % 16)))

/-- JSON escaping of one character of a string being serialized. -/
def jsonEscapeChar (c : Char) : String :=
  if c = '"' then "\\\""
  else if c = '\\' then "\\\\"
  else if c = '\n' then "\\n"
  else if c = '\r' then "\\r"
  else if c = '\t' then "\\t"
  else if c.toNat < 32 then "\\u00" ++ hexDigit (c.toNat / 16) ++ hexDigit (c.toNat % 16)
  else String.singleton c

/-- A string rendered as a quoted, escaped JSON string literal. -/
def jsonQuote (s : String) : String :=
  "\"" ++ String.join (s.toList.map jsonEscapeChar) ++ "\""

mutual

/-- Model of the `JSON.stringify` browser primitive on the modelled values:
`undefined` at the root yields no output at all (JavaScript returns
`undefined`, not a string), object entries whose value is `undefined` are
omitted, `undefined` array elements serialize as `null`, `NaN` serializes
as `null`, and a `File` handle has no own enumerable properties and
serializes as an empty object. -/
def jsonStringify : Value → Option String
  | .vUndefined => none
  | .vNull => some "null"
  | .vBool b => some (cond b "true" "false")
  | .vNum none => some "null"
  | .vNum (some i) => some (toString i)
  | .vStr s => some (jsonQuote s)
  | .vFile _ => some "\x7b\x7d"
  | .vArr elems =>
    some ("[" ++ String.intercalate "," (jsonStringifyElems elems) ++ "]")
  | .vObj fields =>
    some ("\x7b" ++ String.intercalate "," (jsonStringifyFields fields) ++ "\x7d")

/-- Serialized array elements (`undefined` becomes `null`). -/
def jsonStringifyElems : List Value → List String
  | [] => []
  | x :: rest => (jsonStringify x).getD "null" :: jsonStringifyElems rest

/-- Serialized object entries (`undefined`-valued keys are dropped). -/
def jsonStringifyFields : List (String × Value) → List String
  | [] => []
  | (k, v) :: rest =>
    match jsonStringify v with
    | some s => (jsonQuote k ++ ":" ++ s) :: jsonStringifyFields rest
    | none => jsonStringifyFields rest

end

/-- An abstract JSON value: the grammar of JSON texts. -/
inductive Json where
  | null
  | bool (b : Bool)
  | num (i : Int)
  | str (s : String)
  | arr (elems : List Json)
  | obj (fields : List (String × Json))

mutual

/-- The standard rendering of a JSON value as a JSON text. -/
def renderJson : Json → String
  | .null => "null"
  | .bool b => cond b "true" "false"
  | .num i => toString i
  | .str s => jsonQuote s
  | .arr elems => "[" ++ String.intercalate "," (renderJsonList elems) ++ "]"
  | .obj fields => "\x7b" ++ String.intercalate "," (renderJsonFields fields) ++ "\x7d"

/-- Rendered array elements. -/
def renderJsonList : List Json → List String
  | [] => []
  | x :: rest => renderJson x :: renderJsonList rest

/-- Rendered object entries. -/
def renderJsonFields : List (String × Json) → List String
  | [] => []
  | (k, v) :: rest => (jsonQuote k ++ ":" ++ renderJson v) :: renderJsonFields rest

end

/-- A string is valid JSON text when it is the rendering of some JSON
value. -/
def ValidJson (s : String) : Prop := ∃ j : Json, renderJson j = s

/-- One entry stored in a `FormData` container: a `File` handle or a text
value. -/
inductive FormVal where
  | fileEntry (v : Value)
  | textEntry (s : String)

/-- A `FormData` container: its list of entries in order. -/
abbrev FormDataRep := List (String × FormVal)

/-- Model of `FormData.set`: if entries with the key exist, the first is
replaced in place and the others are removed; otherwise the entry is
appended. -/
def fdSet : FormDataRep → String → FormVal → FormDataRep
  | [], key, v => [(key, v)]
  | (k, w) :: rest, key, v =>
    if k == key then (key, v) :: rest.filter (fun e => e.1 != key)
    else (k, w) :: fdSet rest key v

/-- First `if` of the loop body (fetcher.ts lines 121-123):
`typeof prop === 'object' && prop instanceof File` stores the file under
the key. -/
def formDataStep1 (fd : FormDataRep) (key : String) (prop : Value) :
    FormDataRep :=
  if isFileValue prop then fdSet fd key (.fileEntry prop) else fd

/-- Second `if` of the loop body (fetcher.ts lines 125-129):
`Array.isArray(prop) && prop.every(item => item instanceof File)` appends
each element as a repeated entry under the key. -/
def formDataStep2 (fd : FormDataRep) (key : String) (prop : Value) :
    FormDataRep :=
  match prop with
  | .vArr items =>
    if items.all isFileValue then
      items.foldl (fun acc item => acc ++ [(key, FormVal.fileEntry item)]) fd
    else fd
  | _ => fd

/-- Third `if` of the loop body (fetcher.ts lines 131-133):
`prop && !(prop instanceof File)` stores the JSON serialization of the
value under the key (`JSON.stringify` cannot return `undefined` here since
the value is truthy; the fallback text is never used). -/
def formDataStep3 (fd : FormDataRep) (key : String) (prop : Value) :
    FormDataRep :=
  if jsTruthy prop && !isFileValue prop then
    fdSet fd key (.textEntry ((jsonStringify prop).getD "undefined"))
  else fd

/-- The body of the `for (const key of Object.keys(result))` loop of
`createBodyFromValue` (fetcher.ts lines 118-134).  The three `if`
statements are not chained with `else`; they run in sequence on the same
container. -/
def formDataAppendKey (fd : FormDataRep) (key : String) (prop : Value) :
    FormDataRep :=
  formDataStep3 (formDataStep2 (formDataStep1 fd key prop) key prop) key prop

/-- The whole `FormData` built from the converted object's entries. -/
def formDataOfFields (entries : List (String × Value)) : FormDataRep :=
  entries.foldl (fun fd kv => formDataAppendKey fd kv.1 kv.2) []

/-- The body encoding requested by the playground (`type` of
`FetchOptions`). -/
inductive EncodingType where
  | json
  | formData

/-- The value returned by `createBodyFromValue`: a JSON text (`none` when
`JSON.stringify` returned `undefined`) or a `FormData` container. -/
inductive BodyOut where
  | jsonBody (s : Option String)
  | formBody (fd : FormDataRep)

/-- `createBodyFromValue` (fetcher.ts lines 97-137): convert the raw value
against the schema (root field path `body`), then serialize.  `json`
serializes with `JSON.stringify`; `form-data` requires the converted root
to be a truthy `object` (otherwise it throws
`Unsupported body type: <typeof>, expected: object`, modelled as
`Except.error`) and fills a `FormData` from its keys.  The outer `none`
means the converter's fuel ran out. -/
def createBodyFromValue (fuel : Nat) (type : EncodingType) (value : Value)
    (schema : RequestSchema) (references : RefTable) (dynamicFields : DynMap) :
    Option (Except String BodyOut) :=
  match convertValue fuel "body" value schema references dynamicFields with
  | none => none
  | some result =>
    match type with
    | .json => some (.ok (.jsonBody (jsonStringify result)))
    | .formData =>
      if jsTypeof result != "object" || !jsTruthy result then
        some (.error ("Unsupported body type: " ++ jsTypeof result ++
          ", expected: object"))
      else
        some (.ok (.formBody (formDataOfFields (jsEntries result))))

/-- A thrown JavaScript value: an `Error` instance (name and message) or
any other value. -/
inductive JsError where
  | errObj (name message : String)
  | thrown (v : Value)

/-- The message built in the fetcher's `catch` handler:
`e instanceof Error ? `[name] message` : e.toString()`. -/
def errorMessage : JsError → String
  | .errObj n m => "[" ++ n ++ "] " ++ m
  | .thrown v => jsString v

/-- Content classification of a fetch result. -/
inductive ResultType where
  | json
  | html
  | text

/-- `FetchResult`: normalized status, content classification and decoded
payload. -/
structure FetchResult where
  status : Nat
  type : ResultType
  data : Value

/-- `FetchOptions`: the playground's request inputs.  An absent `body` is
`Value.vUndefined`; an absent dynamic-field map is `none` (the source
substitutes `new Map()`). -/
structure FetchOptions where
  url : String
  method : String
  type : EncodingType
  header : List (String × Value)
  body : Value
  dynamicFields : Option DynMap

/-- The outgoing request as handed to the browser's `fetch`. -/
structure FetchRequest where
  url : String
  method : String
  headers : List (String × String)
  body : Option BodyOut

/-- The transport oracle's answer for one request: a rejection of the
network promise (network error, timeout/abort), or a response with status,
`Content-Type` header and the outcomes of its `json()` and `text()`
decoders (which themselves may reject). -/
inductive TransportOutcome where
  | reject (e : JsError)
  | response (status : Nat) (contentType : Option String)
      (jsonDecode : Except JsError Value) (textDecode : Except JsError String)

/-- Header construction (fetcher.ts lines 40-49): a `Content-Type:
application/json` header unless the encoding is `form-data`, then every
caller header whose value is a non-empty string. -/
def buildHeaders (input : FetchOptions) : List (String × String) :=
  let initial : List (String × String) :=
    match input.type with
    | .formData => []
    | .json => [("Content-Type", "application/json")]
  input.header.foldl
    (fun hs kv =>
      match kv.2 with
      | .vStr s => if s.length > 0 then hs ++ [(kv.1, s)] else hs
      | _ => hs)
    initial

/-- The normalized result produced by the fetcher's `catch` handler:
status 400, type `text`, and the error's message. -/
def clientErrorResult (e : JsError) : FetchResult :=
  ⟨400, .text, .vStr ("Client side error: " ++ errorMessage e)⟩

/-- The `.then(...).catch(...)` chain on the network promise (fetcher.ts
lines 65-89): classify the response by its `Content-Type` prefix and
decode it; any rejection (of the network promise or of a decoder) is
caught and normalized by `clientErrorResult`. -/
def runTransport : TransportOutcome → FetchResult
  | .reject e => clientErrorResult e
  | .response status contentType jsonDecode textDecode =>
    let ct := contentType.getD ""
    if ct.startsWith "application/json" then
      match jsonDecode with
      | .ok v => ⟨status, .json, v⟩
      | .error e => clientErrorResult e
    else
      match textDecode with
      | .ok s =>
        ⟨status, if ct.startsWith "text/html" then .html else .text, .vStr s⟩
      | .error e => clientErrorResult e

/-- The `fetch` operation of the fetcher returned by `createBrowserFetcher`
(fetcher.ts lines 34-92).  The outer `Option` is the converter's fuel; the
`Except` is the returned promise: `Except.error` is a rejection.  Body
construction runs synchronously inside the `async` function while the
arguments of the inner `fetch` call are being built, so a throw from
`createBodyFromValue` rejects the returned promise: the `.catch` handler
is attached only to the inner network promise chain. -/
def fetcherFetch (fuel : Nat) (bodySchema : Option RequestSchema)
    (references : RefTable) (input : FetchOptions)
    (transport : FetchRequest → TransportOutcome) :
    Option (Except JsError FetchResult) :=
  let headers := buildHeaders input
  match bodySchema with
  | none =>
    some (.ok (runTransport (transport ⟨input.url, input.method, headers, none⟩)))
  | some schema =>
    match createBodyFromValue fuel input.type input.body schema references
        (input.dynamicFields.getD []) with
    | none => none
    | some (.error msg) => some (.error (.errObj "Error" msg))
    | some (.ok b) =>
      some (.ok (runTransport (transport ⟨input.url, input.method, headers, some b⟩)))

/-! ## Theorems -/

/-- Claim C4: for every field whose raw value is empty (empty string,
absent/undefined, or null) and whose schema is marked required, value
conversion returns the literal `false` when the schema type is `boolean`
and the empty string otherwise; the field is never omitted. -/
theorem c4_theorem (fuel : Nat) (fieldName : String) (v : Value)
    (s : RequestSchema) (refs : RefTable) (dyn : DynMap)
    (hempty : isEmptyValue v = true) (hreq : s.isRequired = true) :
    convertValue (fuel + 1) fieldName v s refs dyn =
      some (if s.typeName == "boolean" then .vBool false else .vStr "") := by
  rw [convertValue.eq_def]
  simp [hempty, hreq]

/-- Witness for C4: a required boolean field with empty-string input
converts to the literal `false`. -/
theorem c4_witness :
    convertValue 1 "body" (.vStr "") (.boolean true) [] [] =
      some (.vBool false) := by
  have h := c4_theorem 0 "body" (.vStr "") (.boolean true) [] [] (by rfl) (by rfl)
  simpa [RequestSchema.typeName] using h

/-- Claim C8: for every non-empty raw value converted against a boolean
schema, the result is `true` only if the raw value is the literal string
`"true"`, `undefined` if it is the literal string `"null"`, and `false` in
every other case (including an actual boolean `true` input). -/
theorem c8_theorem (fuel : Nat) (fieldName : String) (v : Value) (req : Bool)
    (refs : RefTable) (dyn : DynMap) (hne : isEmptyValue v = false) :
    (v = .vStr "true" →
      convertValue (fuel + 1) fieldName v (.boolean req) refs dyn =
        some (.vBool true))
    ∧ (v = .vStr "null" →
      convertValue (fuel + 1) fieldName v (.boolean req) refs dyn =
        some .vUndefined)
    ∧ (v ≠ .vStr "true" → v ≠ .vStr "null" →
      convertValue (fuel + 1) fieldName v (.boolean req) refs dyn =
        some (.vBool false)) := by
  refine ⟨?_, ?_, ?_⟩
  · rintro rfl
    rw [convertValue.eq_def]
    simp [isEmptyValue, convertPrim]
  · rintro rfl
    rw [convertValue.eq_def]
    simp [isEmptyValue, convertPrim]
  · intro ht hn
    rw [convertValue.eq_def]
    cases v with
    | vStr s =>
      have hs1 : s ≠ "true" := by rintro rfl; exact ht rfl
      have hs2 : s ≠ "null" := by rintro rfl; exact hn rfl
      simp_all [convertPrim]
    | _ => simp_all [isEmptyValue, convertPrim]

/-- Witness for C8: an actual boolean `true` input converts to `false`
under a boolean schema. -/
theorem c8_witness :
    convertValue 1 "body" (.vBool true) (.boolean true) [] [] =
      some (.vBool false) :=
  (c8_theorem 0 "body" (.vBool true) true [] [] (by rfl)).2.2
    (by intro h; cases h) (by intro h; cases h)

/-- Whether a value is the absent marker `undefined`. -/
def isUndefinedValue : Value → Bool
  | .vUndefined => true
  | _ => false

/-- A serialized object skips a leading `undefined`-valued entry. -/
theorem jsonStringifyFields_cons_undef (k : String)
    (rest : List (String × Value)) :
    jsonStringifyFields ((k, Value.vUndefined) :: rest) =
      jsonStringifyFields rest := by
  rw [jsonStringifyFields.eq_def]
  simp [jsonStringify]

/-- A serialized object renders a leading entry whose value serializes. -/
theorem jsonStringifyFields_cons_some (k : String) (v : Value) (s : String)
    (rest : List (String × Value)) (hs : jsonStringify v = some s) :
    jsonStringifyFields ((k, v) :: rest) =
      (jsonQuote k ++ ":" ++ s) :: jsonStringifyFields rest := by
  rw [jsonStringifyFields.eq_def]
  simp [hs]

/-- `JSON.stringify` yields no output exactly on `undefined`. -/
theorem jsonStringify_eq_none_iff (v : Value) :
    jsonStringify v = none ↔ v = .vUndefined := by
  cases v with
  | vNum n => cases n <;> simp [jsonStringify]
  | _ => simp [jsonStringify]

/-- Object entries whose value is `undefined` contribute nothing to the
serialized fields. -/
theorem jsonStringifyFields_filter (fields : List (String × Value)) :
    jsonStringifyFields (fields.filter fun kv => !isUndefinedValue kv.2) =
      jsonStringifyFields fields := by
  induction fields with
  | nil => rfl
  | cons kv rest ih =>
    obtain ⟨k, v⟩ := kv
    by_cases hu : isUndefinedValue v = true
    · have hv : v = .vUndefined := by
        cases v <;> simp_all [isUndefinedValue]
      subst hv
      have hdrop : (!isUndefinedValue ((k, Value.vUndefined) : String × Value).2)
          = false := rfl
      rw [List.filter_cons]
      simp only [hdrop, Bool.false_eq_true, if_false]
      rw [ih, jsonStringifyFields_cons_undef]
    · have hne : ¬ v = .vUndefined := by
        rintro rfl; exact hu rfl
      have hsome : jsonStringify v ≠ none := by
        rw [Ne, jsonStringify_eq_none_iff]; exact hne
      obtain ⟨s, hs⟩ := Option.ne_none_iff_exists'.mp hsome
      have hkeep : (!isUndefinedValue ((k, v) : String × Value).2) = true := by
        simp only [Bool.not_eq_true] at hu
        simp [hu]
      rw [List.filter_cons]
      simp only [hkeep, if_true]
      rw [jsonStringifyFields_cons_some k v s _ hs,
        jsonStringifyFields_cons_some k v s _ hs, ih]

mutual

/-- Whenever `JSON.stringify` produces a string, that string is the
rendering of a JSON value, hence valid JSON text. -/
theorem jsonStringify_valid (v : Value) :
    ∀ s : String, jsonStringify v = some s → ∃ j : Json, renderJson j = s := by
  intro s hs
  cases v with
  | vNull =>
    refine ⟨.null, ?_⟩
    simp only [jsonStringify, Option.some.injEq] at hs
    rw [renderJson, hs]
  | vUndefined => simp [jsonStringify] at hs
  | vBool b =>
    refine ⟨.bool b, ?_⟩
    simp only [jsonStringify, Option.some.injEq] at hs
    rw [renderJson, hs]
  | vNum n =>
    cases n with
    | none =>
      refine ⟨.null, ?_⟩
      simp only [jsonStringify, Option.some.injEq] at hs
      rw [renderJson, hs]
    | some i =>
      refine ⟨.num i, ?_⟩
      simp only [jsonStringify, Option.some.injEq] at hs
      rw [renderJson, hs]
  | vStr str =>
    refine ⟨.str str, ?_⟩
    simp only [jsonStringify, Option.some.injEq] at hs
    rw [renderJson, hs]
  | vFile n =>
    refine ⟨.obj [], ?_⟩
    simp only [jsonStringify, Option.some.injEq] at hs
    rw [renderJson, renderJsonFields, ← hs]
    rfl
  | vArr xs =>
    obtain ⟨js, hjs⟩ := jsonStringifyElems_valid xs
    refine ⟨.arr js, ?_⟩
    simp only [jsonStringify, Option.some.injEq] at hs
    rw [renderJson, hjs, hs]
  | vObj fs =>
    obtain ⟨js, hjs⟩ := jsonStringifyFields_valid fs
    refine ⟨.obj js, ?_⟩
    simp only [jsonStringify, Option.some.injEq] at hs
    rw [renderJson, hjs, hs]

/-- The serialized elements of an array are renderings of JSON values. -/
theorem jsonStringifyElems_valid (xs : List Value) :
    ∃ js : List Json, renderJsonList js = jsonStringifyElems xs := by
  cases xs with
  | nil => exact ⟨[], by rw [renderJsonList, jsonStringifyElems]⟩
  | cons x rest =>
    obtain ⟨js, hjs⟩ := jsonStringifyElems_valid rest
    cases hx : jsonStringify x with
    | none =>
      refine ⟨.null :: js, ?_⟩
      rw [renderJsonList, jsonStringifyElems, hx, hjs, renderJson]
      rfl
    | some s =>
      obtain ⟨j, hj⟩ := jsonStringify_valid x s hx
      refine ⟨j :: js, ?_⟩
      rw [renderJsonList, jsonStringifyElems, hx, hjs, hj]
      rfl

/-- The serialized entries of an object are renderings of JSON entries. -/
theorem jsonStringifyFields_valid (fs : List (String × Value)) :
    ∃ js : List (String × Json), renderJsonFields js = jsonStringifyFields fs := by
  cases fs with
  | nil => exact ⟨[], by rw [renderJsonFields, jsonStringifyFields]⟩
  | cons kv rest =>
    obtain ⟨k, v⟩ := kv
    obtain ⟨js, hjs⟩ := jsonStringifyFields_valid rest
    cases hx : jsonStringify v with
    | none =>
      refine ⟨js, ?_⟩
      rw [jsonStringifyFields, hx, hjs]
    | some s =>
      obtain ⟨j, hj⟩ := jsonStringify_valid v s hx
      refine ⟨(k, j) :: js, ?_⟩
      rw [renderJsonFields, jsonStringifyFields, hx, hjs, hj]

end

/-- Claim C3 counterexample: an empty raw value under a non-required root
schema converts to `undefined`, and `JSON.stringify(undefined)` is not a
string at all, so building a `json` body yields no JSON text. -/
theorem c3_counterexample :
    ¬ ∃ s : String, createBodyFromValue 1 .json .vUndefined (.string false) [] [] =
        some (.ok (.jsonBody (some s))) := by
  have heval : createBodyFromValue 1 .json .vUndefined (.string false) [] [] =
      some (.ok (.jsonBody none)) := by
    unfold createBodyFromValue
    rw [convertValue.eq_def]
    simp [isEmptyValue, RequestSchema.isRequired, jsonStringify]
  rintro ⟨s, hs⟩
  rw [heval] at hs
  simp at hs

/-- Claim C3, amended: whenever the converted root value is not the absent
marker `undefined`, building a body with encoding `json` produces a string
that is valid JSON text (the rendering of a JSON value). -/
theorem c3_theorem (fuel : Nat) (v : Value) (s : RequestSchema)
    (refs : RefTable) (dyn : DynMap) (r : Value)
    (hconv : convertValue fuel "body" v s refs dyn = some r)
    (hnu : r ≠ .vUndefined) :
    ∃ (str : String) (j : Json),
      createBodyFromValue fuel .json v s refs dyn =
        some (.ok (.jsonBody (some str))) ∧ renderJson j = str := by
  have hsome : jsonStringify r ≠ none := by
    rw [Ne, jsonStringify_eq_none_iff]; exact hnu
  obtain ⟨str, hstr⟩ := Option.ne_none_iff_exists'.mp hsome
  obtain ⟨j, hj⟩ := jsonStringify_valid r str hstr
  refine ⟨str, j, ?_, hj⟩
  unfold createBodyFromValue
  rw [hconv]
  simp [hstr]

/-- Witness for C3: a required string root with input `"hi"` builds the
valid JSON body text. -/
theorem c3_witness :
    ∃ (str : String) (j : Json),
      createBodyFromValue 1 .json (.vStr "hi") (.string true) [] [] =
        some (.ok (.jsonBody (some str))) ∧ renderJson j = str :=
  c3_theorem 1 (.vStr "hi") (.string true) [] [] (.vStr "hi")
    (by rw [convertValue.eq_def]; simp [isEmptyValue, convertPrim, jsString])
    (by simp)

/-- Claim C5: for every field whose raw value is empty and whose schema is
not marked required, value conversion yields the absent marker
(`undefined`), and serializing a converted object to the JSON payload
never includes a key whose value is that absent marker: dropping all
`undefined`-valued keys leaves the serialized text unchanged. -/
theorem c5_theorem (fuel : Nat) (fieldName : String) (v : Value)
    (s : RequestSchema) (refs : RefTable) (dyn : DynMap)
    (fields : List (String × Value))
    (hempty : isEmptyValue v = true) (hreq : s.isRequired = false) :
    convertValue (fuel + 1) fieldName v s refs dyn = some .vUndefined
    ∧ jsonStringify (.vObj fields) =
        jsonStringify (.vObj (fields.filter fun kv => !isUndefinedValue kv.2)) := by
  constructor
  · rw [convertValue.eq_def]
    simp [hempty, hreq]
  · simp [jsonStringify, jsonStringifyFields_filter]

/-- Witness for C5: an optional number field with absent input converts to
`undefined`, and serializing `⟨b ↦ undefined, a ↦ "x"⟩` ignores `b`. -/
theorem c5_witness :
    convertValue 1 "body.b" .vUndefined (.number false) [] [] =
        some .vUndefined
    ∧ jsonStringify (.vObj [("b", .vUndefined), ("a", .vStr "x")]) =
        jsonStringify (.vObj ([("b", .vUndefined), ("a", .vStr "x")].filter
          fun kv => !isUndefinedValue kv.2)) :=
  c5_theorem 0 "body.b" .vUndefined (.number false) [] []
    [("b", .vUndefined), ("a", .vStr "x")] (by rfl) (by rfl)

/-- Element-wise description of `convertElems`: a successful conversion of
a list preserves its length and converts element `j` (counting from the
starting index `i`) against the resolved item schema with the field path
extended by the decimal index. -/
theorem convertElems_spec (xs : List Value) :
    ∀ (fuel : Nat) (fieldName : String) (i : Nat) (items : SchemaOrRef)
      (refs : RefTable) (dyn : DynMap) (ys : List Value),
      convertElems fuel fieldName i xs items refs dyn = some ys →
      ys.length = xs.length ∧
        ∀ (j : Nat) (x : Value), xs[j]? = some x →
          convertValue fuel (fieldName ++ "." ++ toString (i + j)) x
            (resolve items refs) refs dyn = ys[j]? := by
  induction xs with
  | nil =>
    intro fuel fieldName i items refs dyn ys h
    rw [convertElems.eq_def] at h
    simp at h
    subst h
    simp
  | cons x rest ih =>
    intro fuel fieldName i items refs dyn ys h
    rw [convertElems.eq_def] at h
    simp only at h
    rcases h1 : convertValue fuel (fieldName ++ "." ++ toString i) x
        (resolve items refs) refs dyn with _ | y <;> rw [h1] at h
    · simp at h
    · rcases h2 : convertElems fuel fieldName (i + 1) rest items refs dyn with
        _ | ys' <;> rw [h2] at h
      · simp at h
      · simp only [Option.some.injEq] at h
        subst h
        obtain ⟨hlen, helem⟩ := ih fuel fieldName (i + 1) items refs dyn ys' h2
        refine ⟨by simp [hlen], ?_⟩
        intro j z hz
        cases j with
        | zero =>
          simp only [List.getElem?_cons_zero, Option.some.injEq] at hz
          subst hz
          simpa using h1
        | succ j =>
          simp only [List.getElem?_cons_succ] at hz ⊢
          have := helem j z hz
          have harith : i + 1 + j = i + (j + 1) := by omega
          rw [harith] at this
          exact this

/-- Claim C6: for every array schema and every raw value that is a sequence
of length N, a successful value conversion yields a sequence of the same
length N, where element j is converted against the resolved item schema
with the field path extended by `.` followed by the decimal index j. -/
theorem c6_theorem (fuel : Nat) (fieldName : String) (xs : List Value)
    (req : Bool) (items : SchemaOrRef) (refs : RefTable) (dyn : DynMap)
    (r : Value)
    (hconv : convertValue (fuel + 1) fieldName (.vArr xs) (.array req items)
      refs dyn = some r) :
    ∃ ys : List Value, r = .vArr ys ∧ ys.length = xs.length ∧
      ∀ (j : Nat) (x : Value), xs[j]? = some x →
        convertValue fuel (fieldName ++ "." ++ toString j) x
          (resolve items refs) refs dyn = ys[j]? := by
  rw [convertValue.eq_def] at hconv
  simp only [isEmptyValue, RequestSchema.isRequired, Bool.false_and,
    Bool.false_eq_true, if_false, if_neg] at hconv
  rcases h1 : convertElems fuel fieldName 0 xs items refs dyn with _ | ys <;>
    rw [h1] at hconv <;> simp at hconv
  subst hconv
  obtain ⟨hlen, helem⟩ := convertElems_spec xs fuel fieldName 0 items refs dyn ys h1
  refine ⟨ys, rfl, hlen, ?_⟩
  intro j x hx
  have h := helem j x hx
  simpa using h

/-- Witness for C6: converting `["a"]` against an array-of-string schema
yields a sequence of length 1 whose element was converted at path
`body.0`. -/
theorem c6_witness :
    ∃ ys : List Value, Value.vArr [Value.vStr "a"] = .vArr ys ∧
      ys.length = [Value.vStr "a"].length ∧
      ∀ (j : Nat) (x : Value), [Value.vStr "a"][j]? = some x →
        convertValue 1 ("body" ++ "." ++ toString j) x
          (resolve (.schema (.string true)) []) [] [] = ys[j]? := by
  refine c6_theorem 1 "body" [.vStr "a"] true (.schema (.string true)) [] []
    (.vArr [.vStr "a"]) ?_
  rw [convertValue.eq_def]
  simp only [isEmptyValue, RequestSchema.isRequired]
  rw [convertElems.eq_def]
  simp only [resolve]
  rw [convertValue.eq_def]
  simp [isEmptyValue, convertPrim, jsString, convertElems]

/-- Claim C9: when building a body with encoding `form-data`, if the
converted root value is not an object the operation fails loudly by
raising an error whose message names the actual runtime type of the
converted value; no `FormData` is produced in that case. -/
theorem c9_theorem (fuel : Nat) (v : Value) (s : RequestSchema)
    (refs : RefTable) (dyn : DynMap) (r : Value)
    (hconv : convertValue fuel "body" v s refs dyn = some r)
    (hne : jsTypeof r ≠ "object") :
    createBodyFromValue fuel .formData v s refs dyn =
      some (.error ("Unsupported body type: " ++ jsTypeof r ++
        ", expected: object")) := by
  unfold createBodyFromValue
  rw [hconv]
  simp [hne]

/-- Witness for C9: a root schema of type `string` with a non-empty string
input converts to a string, and form-data body building fails naming the
runtime type `string`. -/
theorem c9_witness :
    createBodyFromValue 2 .formData (.vStr "hi") (.string true) [] [] =
      some (.error "Unsupported body type: string, expected: object") := by
  have h := c9_theorem 2 (.vStr "hi") (.string true) [] [] (.vStr "hi")
    (by rw [convertValue.eq_def]; simp [isEmptyValue, convertPrim, jsString])
    (by simp [jsTypeof])
  simpa [jsTypeof] using h

/-- Appending a falsy non-`File` value to a `FormData` changes nothing:
none of the three branches of the loop body fires. -/
theorem formDataAppendKey_falsy (fd : FormDataRep) (k : String) (v : Value)
    (h : jsTruthy v = false) : formDataAppendKey fd k v = fd := by
  cases v with
  | vNum n =>
    cases n <;>
      simp_all [formDataAppendKey, formDataStep1, formDataStep2, formDataStep3,
        isFileValue, jsTruthy]
  | _ =>
    simp_all [formDataAppendKey, formDataStep1, formDataStep2, formDataStep3,
      isFileValue, jsTruthy]

/-- Entries of `fdSet fd k v` either carry the key `k` or come from `fd`. -/
theorem mem_fdSet (fd : FormDataRep) (k : String) (v : FormVal)
    (e : String × FormVal) (he : e ∈ fdSet fd k v) : e.1 = k ∨ e ∈ fd := by
  induction fd with
  | nil =>
    rw [fdSet] at he
    simp only [List.mem_singleton] at he
    subst he
    exact Or.inl rfl
  | cons kw rest ih =>
    obtain ⟨k', w⟩ := kw
    rw [fdSet] at he
    by_cases hk : k' == k
    · rw [if_pos hk] at he
      rcases List.mem_cons.mp he with h | h
      · subst h; exact Or.inl rfl
      · exact Or.inr (List.mem_cons_of_mem _ (List.mem_of_mem_filter h))
    · rw [if_neg hk] at he
      rcases List.mem_cons.mp he with h | h
      · subst h; exact Or.inr (List.mem_cons_self _ _)
      · rcases ih h with h' | h'
        · exact Or.inl h'
        · exact Or.inr (List.mem_cons_of_mem _ h')

/-- Entries produced by the file-appending loop either carry the loop's key
or come from the initial container. -/
theorem mem_fdAppendFiles (k : String) (items : List Value) :
    ∀ (fd : FormDataRep) (e : String × FormVal),
      e ∈ items.foldl (fun acc item => acc ++ [(k, FormVal.fileEntry item)]) fd →
      e.1 = k ∨ e ∈ fd := by
  induction items with
  | nil => intro fd e he; exact Or.inr he
  | cons x rest ih =>
    intro fd e he
    simp only [List.foldl_cons] at he
    rcases ih _ e he with h | h
    · exact Or.inl h
    · rcases List.mem_append.mp h with h' | h'
      · exact Or.inr h'
      · simp only [List.mem_singleton] at h'
        subst h'
        exact Or.inl rfl

/-- Entries of the first loop step either carry the key or come from the
incoming container. -/
theorem mem_formDataStep1 (fd : FormDataRep) (k : String) (v : Value)
    (e : String × FormVal) (he : e ∈ formDataStep1 fd k v) :
    e.1 = k ∨ e ∈ fd := by
  unfold formDataStep1 at he
  split at he
  · exact mem_fdSet _ _ _ _ he
  · exact Or.inr he

/-- Entries of the second loop step either carry the key or come from the
incoming container. -/
theorem mem_formDataStep2 (fd : FormDataRep) (k : String) (v : Value)
    (e : String × FormVal) (he : e ∈ formDataStep2 fd k v) :
    e.1 = k ∨ e ∈ fd := by
  unfold formDataStep2 at he
  split at he
  · rename_i items
    split at he
    · exact mem_fdAppendFiles k items fd e he
    · exact Or.inr he
  · exact Or.inr he

/-- Entries of the third loop step either carry the key or come from the
incoming container. -/
theorem mem_formDataStep3 (fd : FormDataRep) (k : String) (v : Value)
    (e : String × FormVal) (he : e ∈ formDataStep3 fd k v) :
    e.1 = k ∨ e ∈ fd := by
  unfold formDataStep3 at he
  split at he
  · exact mem_fdSet _ _ _ _ he
  · exact Or.inr he

/-- Entries of the loop body's result either carry the processed key or
come from the incoming container. -/
theorem mem_formDataAppendKey (fd : FormDataRep) (k : String) (v : Value)
    (e : String × FormVal) (he : e ∈ formDataAppendKey fd k v) :
    e.1 = k ∨ e ∈ fd := by
  unfold formDataAppendKey at he
  rcases mem_formDataStep3 _ _ _ _ he with h | h
  · exact Or.inl h
  rcases mem_formDataStep2 _ _ _ _ h with h' | h'
  · exact Or.inl h'
  exact mem_formDataStep1 _ _ _ _ h'

/-- Folding the loop over entries never introduces the key `k` when every
entry carrying `k` has a falsy value. -/
theorem formDataOfFields_aux (k : String) :
    ∀ (entries : List (String × Value)) (fd : FormDataRep),
      (∀ e ∈ fd, e.1 ≠ k) →
      (∀ v', (k, v') ∈ entries → jsTruthy v' = false) →
      ∀ e ∈ entries.foldl (fun acc kv => formDataAppendKey acc kv.1 kv.2) fd,
        e.1 ≠ k := by
  intro entries
  induction entries with
  | nil => intro fd hfd _ e he; exact hfd e he
  | cons kv rest ih =>
    obtain ⟨k1, v1⟩ := kv
    intro fd hfd hall e he
    simp only [List.foldl_cons] at he
    refine ih (formDataAppendKey fd k1 v1) ?_ ?_ e he
    · intro e' he'
      by_cases hkk : k1 = k
      · subst hkk
        have hfal : jsTruthy v1 = false := hall v1 (List.mem_cons_self _ _)
        rw [formDataAppendKey_falsy _ _ _ hfal] at he'
        exact hfd e' he'
      · rcases mem_formDataAppendKey _ _ _ _ he' with h | h
        · rw [h]; exact hkk
        · exact hfd e' h
    · intro v' hv'
      exact hall v' (List.mem_cons_of_mem _ hv')

/-- Claim C10: in form-data body building, every top-level key whose
converted value is falsy and not a `File` — including the boolean `false`
and the empty string that conversion substitutes for required empty
fields — is silently omitted from the resulting `FormData` (a falsy value
is never a `File`, which is always truthy), so a required field defaulted
to `false` or `""` never appears in the multipart payload. -/
theorem c10_theorem (fuel : Nat) (value : Value) (schema : RequestSchema)
    (refs : RefTable) (dyn : DynMap) (fields : List (String × Value))
    (k : String) (v : Value)
    (hconv : convertValue fuel "body" value schema refs dyn = some (.vObj fields))
    (_hmem : (k, v) ∈ fields) (hfalsy : jsTruthy v = false)
    (huniq : ∀ v', (k, v') ∈ fields → v' = v) :
    createBodyFromValue fuel .formData value schema refs dyn =
      some (.ok (.formBody (formDataOfFields fields)))
    ∧ ∀ e ∈ formDataOfFields fields, e.1 ≠ k := by
  constructor
  · unfold createBodyFromValue
    rw [hconv]
    simp [jsTypeof, jsTruthy, jsEntries]
  · refine formDataOfFields_aux k fields [] (by simp) ?_
    intro v' hv'
    rw [huniq v' hv']
    exact hfalsy

/-- Witness for C10: a required boolean `a` with empty input converts to
`false` and a required string `c` converts to `"x"`; the built multipart
payload has no entry named `a`. -/
theorem c10_witness :
    createBodyFromValue 3 .formData (.vObj [("a", .vStr ""), ("c", .vStr "x")])
        (.object true [("a", .schema (.boolean true)), ("c", .schema (.string true))]
          false) [] [] =
      some (.ok (.formBody (formDataOfFields
        [("a", .vBool false), ("c", .vStr "x")])))
    ∧ ∀ e ∈ formDataOfFields [("a", .vBool false), ("c", .vStr "x")],
        e.1 ≠ "a" := by
  refine c10_theorem 3 (.vObj [("a", .vStr ""), ("c", .vStr "x")])
    (.object true [("a", .schema (.boolean true)), ("c", .schema (.string true))]
      false) [] [] [("a", .vBool false), ("c", .vStr "x")] "a" (.vBool false)
    ?_ (by simp) (by rfl) ?_
  · simp [convertValue.eq_def, convertEntries.eq_def, convertElems.eq_def,
      isEmptyValue, RequestSchema.isRequired, RequestSchema.typeName,
      isJsObjectValue, jsEntries, resolve, getDynamicFieldSchema, convertPrim,
      jsString, List.lookup]
  · intro v' hv'
    simp at hv'
    exact hv'

/-- Claim C2 (code behavior at the failing input): a form-data body whose
converted root has a key holding an array of two `File` handles ends up
with a single JSON text entry `[\x7b\x7d,\x7b\x7d]` under that key — the
appended file entries are overwritten by the third, non-exclusive branch
of the loop (`prop && !(prop instanceof File)` also matches arrays), so
the repeated file entries claimed by the spec do not survive. -/
theorem c2_code_bug :
    createBodyFromValue 3 .formData
        (.vObj [("files", .vArr [.vFile "a", .vFile "b"])])
        (.object true [("files", .schema (.array true (.schema (.file true))))]
          false) [] [] =
      some (.ok (.formBody [("files", .textEntry "[\x7b\x7d,\x7b\x7d]")])) := by
  have hconv : convertValue 3 "body" (.vObj [("files", .vArr [.vFile "a", .vFile "b"])])
      (.object true [("files", .schema (.array true (.schema (.file true))))] false)
      [] [] = some (.vObj [("files", .vArr [.vFile "a", .vFile "b"])]) := by
    simp [convertValue.eq_def, convertEntries.eq_def, convertElems.eq_def,
      isEmptyValue, RequestSchema.isRequired, RequestSchema.typeName,
      isJsObjectValue, jsEntries, resolve, getDynamicFieldSchema, convertPrim,
      jsString, List.lookup]
  unfold createBodyFromValue
  rw [hconv]
  simp only [jsTypeof, jsTruthy, jsEntries]
  simp only [formDataOfFields, formDataAppendKey, formDataStep1, formDataStep2,
    formDataStep3, isFileValue, jsTruthy, fdSet, jsonStringify,
    jsonStringifyElems, jsonQuote, List.foldl, List.all, Bool.and_self,
    Bool.not_true, Bool.and_false, Option.getD]
  rfl

mutual

/-- Tree depth of a value: primitives have depth 0, arrays and objects one
more than their deepest child. -/
def depthValue : Value → Nat
  | .vArr xs => depthList xs + 1
  | .vObj fs => depthFields fs + 1
  | _ => 0

/-- Depth of the deepest element of a list of values. -/
def depthList : List Value → Nat
  | [] => 0
  | x :: rest => max (depthValue x) (depthList rest)

/-- Depth of the deepest value of a list of entries. -/
def depthFields : List (String × Value) → Nat
  | [] => 0
  | (_, v) :: rest => max (depthValue v) (depthFields rest)

end

mutual

/-- Fuel sufficient to convert a value against any non-switcher schema
(one extra unit per level pays for at most one switcher hop). -/
def fuelBound : Value → Nat
  | .vArr xs => fuelBoundList xs + 1
  | .vObj fs => fuelBoundFields fs + 1
  | _ => 1

/-- Fuel sufficient to convert every element of a list (each element may
need a switcher hop, hence the `+ 1`). -/
def fuelBoundList : List Value → Nat
  | [] => 0
  | x :: rest => max (fuelBound x + 1) (fuelBoundList rest)

/-- Fuel sufficient to convert every entry of an object. -/
def fuelBoundFields : List (String × Value) → Nat
  | [] => 0
  | (_, v) :: rest => max (fuelBound v + 1) (fuelBoundFields rest)

end

/-- Every value needs at least one unit of fuel. -/
theorem fuelBound_pos (v : Value) : 1 ≤ fuelBound v := by
  cases v <;> simp [fuelBound]

/-- The entries of an array, viewed as object entries, need exactly the
list's fuel. -/
theorem fuelBoundFields_indexedEntries (xs : List Value) :
    ∀ i : Nat, fuelBoundFields (indexedEntries i xs) = fuelBoundList xs := by
  induction xs with
  | nil => intro i; rfl
  | cons x rest ih =>
    intro i
    rw [indexedEntries, fuelBoundFields, fuelBoundList, ih]

/-- The fuel needed for the own enumerable entries of an object-typed
value is strictly below the value's own fuel bound. -/
theorem fuelBound_jsEntries (v : Value) (h : isJsObjectValue v = true) :
    fuelBoundFields (jsEntries v) + 1 ≤ fuelBound v := by
  cases v with
  | vArr xs =>
    simp [jsEntries, fuelBoundFields_indexedEntries xs 0, fuelBound]
  | vObj fs => simp [jsEntries, fuelBound]
  | vNull => simp [jsEntries, fuelBound, fuelBoundFields]
  | vFile n => simp [jsEntries, fuelBound, fuelBoundFields]
  | _ => simp [isJsObjectValue] at h

mutual

/-- The fuel bound is linear in the value's depth. -/
theorem fuelBound_le_depth (v : Value) : fuelBound v ≤ 2 * depthValue v + 1 := by
  cases v with
  | vArr xs =>
    have h := fuelBoundList_le_depth xs
    rw [fuelBound, depthValue]
    omega
  | vObj fs =>
    have h := fuelBoundFields_le_depth fs
    rw [fuelBound, depthValue]
    omega
  | _ => simp [fuelBound, depthValue]

/-- The list fuel bound is linear in the list's depth. -/
theorem fuelBoundList_le_depth (xs : List Value) :
    fuelBoundList xs ≤ 2 * depthList xs + 2 := by
  cases xs with
  | nil => simp [fuelBoundList]
  | cons x rest =>
    have h1 := fuelBound_le_depth x
    have h2 := fuelBoundList_le_depth rest
    rw [fuelBoundList, depthList]
    omega

/-- The entries fuel bound is linear in the entries' depth. -/
theorem fuelBoundFields_le_depth (fs : List (String × Value)) :
    fuelBoundFields fs ≤ 2 * depthFields fs + 2 := by
  cases fs with
  | nil => simp [fuelBoundFields]
  | cons kv rest =>
    obtain ⟨k, v⟩ := kv
    have h1 := fuelBound_le_depth v
    have h2 := fuelBoundFields_le_depth rest
    rw [fuelBoundFields, depthFields]
    omega

end

/-- The side condition under which conversion terminates: no dynamic-field
lookup, after resolution, yields another `switcher` schema (the fallback
for missing paths is null-typed, so an empty map satisfies this). -/
def SwitcherFree (dynamicFields : DynMap) (references : RefTable) : Prop :=
  ∀ p : String,
    isSwitcherType (resolve (getDynamicFieldSchema p dynamicFields) references) =
      false

/-- Core convergence lemma: under `SwitcherFree`, enough fuel makes the
converter (and its two list workers) succeed.  Proved by induction on the
fuel. -/
theorem convertTotalAux (refs : RefTable) (dyn : DynMap)
    (hsf : SwitcherFree dyn refs) :
    ∀ fuel : Nat,
      (∀ (f : String) (v : Value) (s : RequestSchema),
        isSwitcherType s = false → fuelBound v ≤ fuel →
        (convertValue fuel f v s refs dyn).isSome)
      ∧ (∀ (f : String) (v : Value) (s : RequestSchema),
        fuelBound v + 1 ≤ fuel → (convertValue fuel f v s refs dyn).isSome)
      ∧ (∀ (f : String) (i : Nat) (xs : List Value) (items : SchemaOrRef),
        fuelBoundList xs ≤ fuel →
        (convertElems fuel f i xs items refs dyn).isSome)
      ∧ (∀ (f : String) (es : List (String × Value))
          (props : List (String × SchemaOrRef)) (addl : Bool),
        fuelBoundFields es ≤ fuel →
        (convertEntries fuel f es props addl refs dyn).isSome) := by
  intro fuel
  induction fuel with
  | zero =>
    refine ⟨?_, ?_, ?_, ?_⟩
    · intro f v s _ hb
      exact absurd hb (by have := fuelBound_pos v; omega)
    · intro f v s hb
      exact absurd hb (by omega)
    · intro f i xs items hb
      cases xs with
      | nil => simp [convertElems]
      | cons x rest =>
        rw [fuelBoundList] at hb
        exact absurd hb (by have := fuelBound_pos x; omega)
    · intro f es props addl hb
      cases es with
      | nil => simp [convertEntries]
      | cons kv rest =>
        obtain ⟨k, v⟩ := kv
        rw [fuelBoundFields] at hb
        exact absurd hb (by have := fuelBound_pos v; omega)
  | succ n ih =>
    obtain ⟨ih1, ih2, ih3, ih4⟩ := ih
    have p1 : ∀ (f : String) (v : Value) (s : RequestSchema),
        isSwitcherType s = false → fuelBound v ≤ n + 1 →
        (convertValue (n + 1) f v s refs dyn).isSome := by
      intro f v s hns hb
      rw [convertValue.eq_def]
      by_cases he1 : (isEmptyValue v && s.isRequired) = true
      · simp [he1]
      by_cases he2 : isEmptyValue v = true
      · simp only [he1, he2]
        simp
        split <;> simp
      cases s with
      | switcher r => simp [isSwitcherType] at hns
      | array r items =>
        cases v with
        | vArr xs =>
          have hl : fuelBoundList xs ≤ n := by
            rw [fuelBound] at hb; omega
          obtain ⟨ys, hys⟩ :=
            Option.isSome_iff_exists.mp (ih3 f 0 xs items hl)
          simp [he1, he2, hys]
        | _ => simp [he1, he2]
      | object r props addl =>
        by_cases ho : isJsObjectValue v = true
        · have hlf : fuelBoundFields (jsEntries v) ≤ n := by
            have := fuelBound_jsEntries v ho; omega
          obtain ⟨es, hes⟩ :=
            Option.isSome_iff_exists.mp (ih4 f (jsEntries v) props addl hlf)
          simp [he1, he2, ho, hes]
        · simp [he1, he2, ho]
      | _ => simp [he1, he2]
    have p2 : ∀ (f : String) (v : Value) (s : RequestSchema),
        fuelBound v + 1 ≤ n + 1 →
        (convertValue (n + 1) f v s refs dyn).isSome := by
      intro f v s hb
      by_cases hns : isSwitcherType s = false
      · exact p1 f v s hns (by omega)
      have hsw : ∃ r, s = .switcher r := by
        cases s <;> simp_all [isSwitcherType]
      obtain ⟨r, rfl⟩ := hsw
      rw [convertValue.eq_def]
      by_cases he1 : (isEmptyValue v && (RequestSchema.switcher r).isRequired) = true
      · simp [he1]
      by_cases he2 : isEmptyValue v = true
      · simp only [he1, he2]
        simp
        split <;> simp
      have hres : isSwitcherType
          (resolve (getDynamicFieldSchema f dyn) refs) = false := hsf f
      obtain ⟨w, hw⟩ := Option.isSome_iff_exists.mp
        (ih1 f v (resolve (getDynamicFieldSchema f dyn) refs) hres (by omega))
      cases v <;> simp [he1, he2, hw]
    have p3 : ∀ (f : String) (i : Nat) (xs : List Value) (items : SchemaOrRef),
        fuelBoundList xs ≤ n + 1 →
        (convertElems (n + 1) f i xs items refs dyn).isSome := by
      intro f i xs items
      induction xs generalizing i with
      | nil => intro hb; simp [convertElems]
      | cons x rest ihx =>
        intro hb
        rw [fuelBoundList] at hb
        obtain ⟨y, hy⟩ := Option.isSome_iff_exists.mp
          (p2 (f ++ "." ++ toString i) x (resolve items refs)
            (le_trans (le_max_left _ _) hb))
        obtain ⟨ys, hys⟩ := Option.isSome_iff_exists.mp
          (ihx (i + 1) (le_trans (le_max_right _ _) hb))
        rw [convertElems.eq_def]
        simp [hy, hys]
    have p4 : ∀ (f : String) (es : List (String × Value))
        (props : List (String × SchemaOrRef)) (addl : Bool),
        fuelBoundFields es ≤ n + 1 →
        (convertEntries (n + 1) f es props addl refs dyn).isSome := by
      intro f es props addl
      induction es with
      | nil => intro hb; simp [convertEntries]
      | cons kv rest ihe =>
        obtain ⟨key, prop⟩ := kv
        intro hb
        rw [fuelBoundFields] at hb
        have hx : fuelBound prop + 1 ≤ n + 1 := le_trans (le_max_left _ _) hb
        obtain ⟨kvs, hkvs⟩ := Option.isSome_iff_exists.mp
          (ihe (le_trans (le_max_right _ _) hb))
        rw [convertEntries.eq_def]
        cases hlk : props.lookup key with
        | some ps =>
          obtain ⟨w, hw⟩ := Option.isSome_iff_exists.mp
            (p2 (f ++ "." ++ key) prop (resolve ps refs) hx)
          simp [hlk, hw, hkvs]
        | none =>
          rcases Bool.eq_false_or_eq_true addl with haddl | haddl <;> subst haddl
          · obtain ⟨w, hw⟩ := Option.isSome_iff_exists.mp
              (p2 (f ++ "." ++ key) prop
                (resolve (getDynamicFieldSchema (f ++ "." ++ key) dyn) refs) hx)
            simp [hlk, hw, hkvs]
          · simp [hlk, hkvs]
    exact ⟨p1, p2, p3, p4⟩

/-- Claim C7, amended: provided no dynamic-field lookup resolves to
another `switcher` schema, value conversion terminates, with recursion
depth bounded linearly by the depth of the input value (fuel
`2 * depth + 2` suffices, covering one switcher hop per level); without
that side condition conversion can diverge (see the counterexample). -/
theorem c7_theorem (refs : RefTable) (dyn : DynMap)
    (hsf : SwitcherFree dyn refs) (fuel : Nat) (fieldName : String)
    (v : Value) (s : RequestSchema)
    (hfuel : 2 * depthValue v + 2 ≤ fuel) :
    (convertValue fuel fieldName v s refs dyn).isSome := by
  have hb : fuelBound v + 1 ≤ fuel := by
    have := fuelBound_le_depth v
    omega
  exact (convertTotalAux refs dyn hsf fuel).2.1 fieldName v s hb

/-- Witness for C7: with an empty dynamic-field map (trivially
switcher-free) and fuel `2`, a string of depth 0 converts successfully. -/
theorem c7_witness :
    (convertValue 2 "body" (.vStr "a") (.string true) [] []).isSome := by
  refine c7_theorem [] [] ?_ 2 "body" (.vStr "a") (.string true) ?_
  · intro p
    simp [getDynamicFieldSchema, resolve, isSwitcherType, List.lookup]
  · simp [depthValue]

/-- On the looping input, the converter exhausts any amount of fuel: the
`switcher` schema resolves, through the dynamic-field map, to another
`switcher` schema and the recursion repeats with identical arguments. -/
theorem convertValue_switcherLoop (fuel : Nat) :
    convertValue fuel "body" (.vStr "x") (.switcher false) []
      [("body", DynamicField.field (.schema (.switcher false)))] = none := by
  induction fuel with
  | zero => simp [convertValue.eq_def]
  | succ n ih =>
    rw [convertValue.eq_def]
    simp [isEmptyValue, getDynamicFieldSchema, resolve, List.lookup, ih]

/-- Claim C7 counterexample: with a dynamic-field map binding the path
`body` to a `switcher` schema, conversion of a non-empty value against a
`switcher` schema diverges — no amount of fuel makes it return. -/
theorem c7_counterexample :
    ¬ ∃ fuel : Nat,
      (convertValue fuel "body" (.vStr "x") (.switcher false) []
        [("body", DynamicField.field (.schema (.switcher false)))]).isSome := by
  rintro ⟨fuel, h⟩
  rw [convertValue_switcherLoop] at h
  simp at h

/-- Any transport rejection is normalized by the `catch` handler to a
status-400 text result carrying the error's message. -/
theorem runTransport_reject (e : JsError) :
    runTransport (.reject e) =
      ⟨400, .text, .vStr ("Client side error: " ++ errorMessage e)⟩ := by
  rw [runTransport, clientErrorResult]

/-- A response both of whose decoders reject is normalized to the same
status-400 text result, whatever the content type. -/
theorem runTransport_decodeError (st : Nat) (ct : Option String) (e : JsError) :
    runTransport (.response st ct (.error e) (.error e)) =
      ⟨400, .text, .vStr ("Client side error: " ++ errorMessage e)⟩ := by
  rw [runTransport]
  by_cases h : (ct.getD "").startsWith "application/json" <;>
    simp [h, clientErrorResult]

/-- Claim C1, amended: provided body construction does not throw (no body
schema, or `createBodyFromValue` returns a body), the promise returned by
the fetcher's fetch operation resolves to a `FetchResult` and never
rejects; every transport-level failure — a rejected network promise
(network error, timeout/abort) as well as a decode error — is converted
into a result with status 400, type `text`, and a textual message
combining the error's name and message (or its string form if it is not
an `Error`).  When body construction does throw, the promise rejects
(see the counterexample). -/
theorem c1_theorem (fuel : Nat) (bodySchema : Option RequestSchema)
    (refs : RefTable) (input : FetchOptions)
    (transport : FetchRequest → TransportOutcome)
    (hbody : bodySchema = none ∨ ∃ s b, bodySchema = some s ∧
      createBodyFromValue fuel input.type input.body s refs
        (input.dynamicFields.getD []) = some (.ok b)) :
    (∃ r : FetchResult,
      fetcherFetch fuel bodySchema refs input transport = some (.ok r))
    ∧ (∀ e : JsError, (∀ req, transport req = .reject e) →
        fetcherFetch fuel bodySchema refs input transport =
          some (.ok ⟨400, .text,
            .vStr ("Client side error: " ++ errorMessage e)⟩))
    ∧ (∀ (st : Nat) (ct : Option String) (e : JsError),
        (∀ req, transport req = .response st ct (.error e) (.error e)) →
        fetcherFetch fuel bodySchema refs input transport =
          some (.ok ⟨400, .text,
            .vStr ("Client side error: " ++ errorMessage e)⟩)) := by
  rcases hbody with hnone | ⟨s, b, hs, hb⟩
  · subst hnone
    refine ⟨⟨_, rfl⟩, ?_, ?_⟩
    · intro e he
      unfold fetcherFetch
      simp [he, runTransport_reject]
    · intro st ct e he
      unfold fetcherFetch
      simp [he, runTransport_decodeError]
  · subst hs
    have hmain : fetcherFetch fuel (some s) refs input transport =
        some (.ok (runTransport (transport
          ⟨input.url, input.method, buildHeaders input, some b⟩))) := by
      unfold fetcherFetch
      simp [hb]
    refine ⟨⟨_, hmain⟩, ?_, ?_⟩
    · intro e he
      rw [hmain, he, runTransport_reject]
    · intro st ct e he
      rw [hmain, he, runTransport_decodeError]

/-- Witness for C1: with no body schema, a transport that rejects with an
abort error resolves to the normalized 400 text result. -/
theorem c1_witness :
    ∃ r : FetchResult,
      fetcherFetch 1 none [] ⟨"https://example.com", "GET", .json, [], .vUndefined, none⟩
        (fun _ => .reject (.errObj "TimeoutError" "The operation timed out.")) =
        some (.ok r) :=
  (c1_theorem 1 none []
    ⟨"https://example.com", "GET", .json, [], .vUndefined, none⟩
    (fun _ => .reject (.errObj "TimeoutError" "The operation timed out."))
    (Or.inl rfl)).1

/-- Claim C1 counterexample: with a string body schema and form-data
encoding, `createBodyFromValue` throws (`Unsupported body type`), the
`async` function aborts while building the inner fetch call's arguments,
and the returned promise rejects — it does not resolve to a
`FetchResult`. -/
theorem c1_counterexample :
    fetcherFetch 2 (some (.string true)) []
        ⟨"https://example.com", "POST", .formData, [], .vStr "hi", none⟩
        (fun _ => .reject (.errObj "TypeError" "Failed to fetch")) =
      some (.error (.errObj "Error"
        "Unsupported body type: string, expected: object")) := by
  unfold fetcherFetch
  have hb : createBodyFromValue 2 .formData (.vStr "hi") (.string true) [] [] =
      some (.error "Unsupported body type: string, expected: object") := by
    simp [createBodyFromValue, convertValue.eq_def, isEmptyValue, convertPrim,
      jsString, jsTypeof, jsTruthy]
  simp [hb]

end Fumadocs
